import Mathlib

/-!
# Verification of the Pokefin historical-price backfill engine

Shallow embedding of the pure core of `backfill_historical_prices.py`
(and the API-result selector of `main.py`), with theorems settling the
frozen claims about the spec.

Conventions:
* Python `int` fields are `Int`; prices (`float` on finite decimal
  literals) are `ℚ`.
* Python `datetime.date` / naive `datetime` values are `Date` records;
  comparisons between dates go through the proleptic-Gregorian ordinal
  `Date.toOrd`, which on valid dates agrees with Python's field-wise
  comparison.
* Fallible parsing (`int(...)`, `float(...)`, `datetime(...)`,
  `strptime`) returns `Option`; a raised-and-caught `ValueError`
  corresponds to `none`.
-/

/-- Calendar date, mirroring Python `datetime.date(year, month, day)`. -/
structure Date where
  year : Int
  month : Int
  day : Int
deriving DecidableEq, Repr

/-- Gregorian leap-year test (as in Python's `calendar.isleap`). -/
def isLeap (y : Int) : Bool :=
  y % 4 == 0 && (y % 100 != 0 || y % 400 == 0)

/-- Number of days in a month; `0` for an out-of-range month. -/
def daysInMonth (y m : Int) : Int :=
  match m with
  | 1 => 31
  | 2 => if isLeap y then 29 else 28
  | 3 => 31
  | 4 => 30
  | 5 => 31
  | 6 => 30
  | 7 => 31
  | 8 => 31
  | 9 => 30
  | 10 => 31
  | 11 => 30
  | 12 => 31
  | _ => 0

/-- Days of `y` before the first of month `m` (for valid months). -/
def daysBeforeMonth (y m : Int) : Int :=
  match m with
  | 1 => 0
  | 2 => 31
  | 3 => if isLeap y then 60 else 59
  | 4 => if isLeap y then 91 else 90
  | 5 => if isLeap y then 121 else 120
  | 6 => if isLeap y then 152 else 151
  | 7 => if isLeap y then 182 else 181
  | 8 => if isLeap y then 213 else 212
  | 9 => if isLeap y then 244 else 243
  | 10 => if isLeap y then 274 else 273
  | 11 => if isLeap y then 305 else 304
  | 12 => if isLeap y then 335 else 334
  | _ => 0

/-- The range Python's `datetime` constructor accepts without raising
`ValueError`: `MINYEAR = 1 ≤ year ≤ MAXYEAR = 9999` and a real
month/day combination. -/
def validYMD (y m d : Int) : Prop :=
  1 ≤ y ∧ y ≤ 9999 ∧ 1 ≤ m ∧ m ≤ 12 ∧ 1 ≤ d ∧ d ≤ daysInMonth y m

instance (y m d : Int) : Decidable (validYMD y m d) := by
  unfold validYMD; infer_instance

/-- Python's `datetime(year, month, day)`: raises (here `none`) on an
invalid combination, otherwise builds the date. -/
def mkDate (y m d : Int) : Option Date :=
  if validYMD y m d then some ⟨y, m, d⟩ else none

/-- Proleptic-Gregorian day ordinal (Python `date.toordinal`):
day count with 0001-01-01 as day 1. -/
def Date.toOrd (d : Date) : Int :=
  let p := d.year - 1
  365 * p + p / 4 - p / 100 + p / 400 + daysBeforeMonth d.year d.month + d.day

/-- `date + timedelta(days=1)` for valid dates. -/
def nextDay (d : Date) : Date :=
  if d.day < daysInMonth d.year d.month then ⟨d.year, d.month, d.day + 1⟩
  else if d.month < 12 then ⟨d.year, d.month + 1, 1⟩
  else ⟨d.year + 1, 1, 1⟩

/-- `n + 1` consecutive days starting at `d`. -/
def rangeAux (d : Date) : Nat → List Date
  | 0 => [d]
  | n + 1 => d :: rangeAux (nextDay d) n

/-- The dates visited by `while current <= end: ...; current += 1 day`.
For valid dates `nextDay` advances `toOrd` by exactly one, so the trip
count is `end.toOrd - start.toOrd + 1`. -/
def dateRangeDays (start stop : Date) : List Date :=
  if start.toOrd ≤ stop.toOrd then rangeAux start (stop.toOrd - start.toOrd).toNat
  else []

/-- Left-pad a natural's decimal representation with zeros to width `w`. -/
def padNat (w : Nat) (n : Nat) : String :=
  let s := Nat.repr n
  String.mk (List.replicate (w - s.length) '0') ++ s

/-- `strftime("%Y-%m-%d")`. -/
def dateToStr (d : Date) : String :=
  padNat 4 d.year.toNat ++ "-" ++ padNat 2 d.month.toNat ++ "-" ++ padNat 2 d.day.toNat

/-- Python lexicographic string order (`<=` by code point), on char lists. -/
def charsLe : List Char → List Char → Bool
  | [], _ => true
  | _ :: _, [] => false
  | a :: as, b :: bs =>
    if a < b then true
    else if b < a then false
    else charsLe as bs

/-- Python `s1 <= s2` on strings. -/
def strLe (a b : String) : Bool :=
  charsLe a.data b.data

example : strLe "2025-01-01" "2025-01-02" = true := by decide
example : strLe "2025-06-01" "2025-05-31" = false := by decide
example : dateToStr ⟨2025, 1, 3⟩ = "2025-01-03" := by decide
example : dateRangeDays ⟨2025, 1, 1⟩ ⟨2025, 1, 3⟩ =
    [⟨2025, 1, 1⟩, ⟨2025, 1, 2⟩, ⟨2025, 1, 3⟩] := by decide
example : mkDate 2023 2 29 = none := by decide
example : (Date.toOrd ⟨2025, 1, 4⟩) - (Date.toOrd ⟨2024, 12, 31⟩) = 4 := by decide

/-- The whitespace characters stripped by Python's `str.strip()`
(ASCII subset, which covers all inputs this program meets). -/
def isPySpace (c : Char) : Bool :=
  c == ' ' || c == '\t' || c == '\n' || c == '\r' || c == '\x0b' || c == '\x0c'

/-- Strip leading and trailing whitespace from a char list. -/
def stripChars (cs : List Char) : List Char :=
  ((cs.dropWhile isPySpace).reverse.dropWhile isPySpace).reverse

/-- Python `s.strip()`. -/
def pyStrip (s : String) : String :=
  String.mk (stripChars s.data)

/-- Does `cs` start with `pre`? -/
def charsStartWith : List Char → List Char → Bool
  | _, [] => true
  | [], _ :: _ => false
  | c :: cs, s :: ss => c == s && charsStartWith cs ss

/-- Fuel-driven worker for `pySplit` (fuel bounds the scan length, so
the recursion is structural and kernel-reducible). -/
def pySplitAux (sep : List Char) : Nat → List Char → List Char → List (List Char)
  | _, [], acc => [acc.reverse]
  | 0, cs, acc => [acc.reverse ++ cs]
  | fuel + 1, c :: rest, acc =>
    if charsStartWith (c :: rest) sep then
      acc.reverse :: pySplitAux sep fuel ((c :: rest).drop sep.length) []
    else pySplitAux sep fuel rest (c :: acc)

/-- Python `s.split(sep)` for a nonempty separator: left-to-right
non-overlapping splitting, keeping empty pieces. -/
def pySplit (s : String) (sep : String) : List String :=
  (pySplitAux sep.data s.data.length s.data []).map String.mk

/-- Digit run as accepted by Python's `int()` after the sign: nonempty,
digits with single underscores strictly between digits. -/
def digitsUAux : List Char → Bool
  | [] => true
  | [c] => c.isDigit
  | c :: c2 :: rest =>
    if c.isDigit then digitsUAux (c2 :: rest)
    else if c == '_' then c2.isDigit && digitsUAux (c2 :: rest)
    else false

/-- Validity of the digit part of a Python integer literal string. -/
def pyDigits (cs : List Char) : Bool :=
  match cs with
  | [] => false
  | c :: _ => c.isDigit && digitsUAux cs

/-- Value of a digit run (underscores ignored). -/
def digitsVal (cs : List Char) : Nat :=
  (cs.filter (fun c => c != '_')).foldl (fun a c => 10 * a + (c.toNat - 48)) 0

/-- Python `int(s)` on strings: strip whitespace, optional sign,
underscore-grouped digits; raises (`none`) otherwise. -/
def pyInt (s : String) : Option Int :=
  match stripChars s.data with
  | '+' :: rest => if pyDigits rest then some (digitsVal rest : Int) else none
  | '-' :: rest => if pyDigits rest then some (-(digitsVal rest : Int)) else none
  | cs => if pyDigits cs then some (digitsVal cs : Int) else none

/-- Value of a plain digit run. -/
def plainDigitsVal (cs : List Char) : Nat :=
  cs.foldl (fun a c => 10 * a + (c.toNat - 48)) 0

/-- Unsigned finite decimal literal: `digits`, `digits.digits`,
`digits.` or `.digits`. -/
def pyFloatCore (cs : List Char) : Option ℚ :=
  let p := cs.span (fun c => c != '.')
  match p.2 with
  | [] =>
    if !p.1.isEmpty && p.1.all Char.isDigit then some (mkRat (plainDigitsVal p.1) 1)
    else none
  | _ :: fp =>
    if !(p.1 ++ fp).isEmpty && p.1.all Char.isDigit && fp.all Char.isDigit then
      some (mkRat (plainDigitsVal (p.1 ++ fp)) (10 ^ fp.length))
    else none

/-- Python `float(s)` restricted to finite decimal literals (the only
forms the scraped price text takes: no exponent, infinity, nan or
underscore forms). -/
def pyFloat (s : String) : Option ℚ :=
  match stripChars s.data with
  | '+' :: rest => pyFloatCore rest
  | '-' :: rest => (pyFloatCore rest).map (fun q => -q)
  | cs => pyFloatCore cs

/-- The current UTC instant (`datetime.now(timezone.utc)`) at second
granularity: a calendar date plus seconds elapsed of that day. -/
structure PyNow where
  year : Int
  month : Int
  day : Int
  secOfDay : Int
deriving DecidableEq, Repr

/-- Seconds since the epoch of the ordinal scale (for comparisons of
`datetime` values). -/
def PyNow.instant (n : PyNow) : Int :=
  (Date.toOrd ⟨n.year, n.month, n.day⟩) * 86400 + n.secOfDay

/-- `parse_short_date` (backfill_historical_prices.py:445-476): parse
`"M/D"`, resolving the year against `now`: current year unless the
candidate lies more than 7 days in the future, in which case the
previous year is tried (its `datetime` construction may itself raise,
yielding `None`). -/
def parse_short_date (s : String) (now : PyNow) : Option Date :=
  match pySplit s "/" with
  | [ms, ds] =>
    match pyInt ms, pyInt ds with
    | some month, some day =>
      match mkDate now.year month day with
      | some cand =>
        if cand.toOrd * 86400 > now.instant + 7 * 86400 then
          mkDate (now.year - 1) month day
        else some cand
      | none => none
    | _, _ => none
  | _ => none

/-- `datetime.strptime(s, "%Y-%m-%d")` on the strings admitted by the
caller's `"-" in s and len(s) == 10` guard: exactly `dddd-dd-dd` with a
real calendar date. -/
def parseYMD (s : String) : Option Date :=
  match pySplit s "-" with
  | [ys, ms, ds] =>
    if ys.length == 4 && ms.length == 2 && ds.length == 2
        && ys.data.all Char.isDigit && ms.data.all Char.isDigit
        && ds.data.all Char.isDigit then
      mkDate (plainDigitsVal ys.data : Int) (plainDigitsVal ms.data : Int)
        (plainDigitsVal ds.data : Int)
    else none
  | _ => none

example : pyInt "11" = some 11 := by decide
example : pyInt " 5" = some 5 := by decide
example : pyInt "5.0" = none := by decide
example : pyFloat "0.00" = some 0 := by decide
example : pyFloat "1234.56" = some (mkRat 123456 100) := by decide
example : pyFloat "" = none := by decide
example : parse_short_date "12/25" ⟨2024, 1, 1, 0⟩ = some ⟨2023, 12, 25⟩ := by decide
example : parse_short_date "1/3" ⟨2024, 1, 1, 0⟩ = some ⟨2024, 1, 3⟩ := by decide
example : parse_short_date "2/29" ⟨2024, 1, 1, 0⟩ = none := by decide
example : parseYMD "2025-11-08" = some ⟨2025, 11, 8⟩ := by decide
example : parseYMD "2025/11/08" = none := by decide

/-- One extracted price observation: `{'date': "YYYY-MM-DD", 'price': p}`. -/
structure Entry where
  date : String
  price : ℚ
deriving DecidableEq, Repr

/-- `price_str.strip().replace("$", "").replace(",", "")`
(single-character patterns, so `replace` is a character filter). -/
def cleanPrice (s : String) : String :=
  String.mk ((stripChars s.data).filter (fun c => c != '$' && c != ','))

/-- Row handler of `extract_canvas_table_data`
(backfill_historical_prices.py:374-430): one `<tr>`'s date and price
cell texts to the emitted entries, appended to the accumulator.
A `ValueError` from `float`, `parse_short_date` or `strptime` skips the
row. -/
def processRow ( is_date_range : Bool) (now : PyNow) (acc : List Entry)
    (row : String × String) : List Entry :=
  let date_str := pyStrip row.1
  let price_str := cleanPrice row.2
  match pyFloat price_str with
  | none => acc
  | some price =>
    if is_date_range then
      match pySplit date_str " to " with
      | [a, b] =>
        match parse_short_date (pyStrip a) now, parse_short_date (pyStrip b) now with
        | some start_date, some end_date =>
          acc ++ (dateRangeDays start_date end_date).map (fun d => ⟨dateToStr d, price⟩)
        | _, _ => acc
      | _ => acc
    else
      if date_str.data.contains '-' && date_str.length == 10 then
        match parseYMD date_str with
        | some date_obj => acc ++ [⟨dateToStr date_obj, price⟩]
        | none => acc
      else acc

/-- `extract_canvas_table_data` (backfill_historical_prices.py:355-442):
the pure row-processing of one canvas table, given the text of each
row's first two cells. -/
def extract_canvas_table_data (rows : List (String × String))
    ( is_date_range : Bool) (now : PyNow) : List Entry :=
  rows.foldl (processRow is_date_range now) []

/-- The dict-based dedup of `extract_historical_prices`
(backfill_historical_prices.py:327-333): first occurrence per date in
iteration order is kept, in first-occurrence order (Python dicts
preserve insertion order). -/
def dedupByDate (seen : List String) : List Entry → List Entry
  | [] => []
  | e :: rest =>
    if e.date ∈ seen then dedupByDate seen rest
    else e :: dedupByDate (e.date :: seen) rest

/-- `extract_historical_prices` (backfill_historical_prices.py:261-342),
pure core: `timeframeResults` are the per-timeframe
`extract_canvas_table_data` outputs in `TIMEFRAME_BUTTONS` order
(`'1M', '3M', '6M', '1Y'` — finest first); they are accumulated with
`extend` and deduplicated over the *reversed* accumulated list, keeping
the first occurrence of each date met in that reversed order. -/
def extract_historical_prices (timeframeResults : List (List Entry)) : List Entry :=
  let all_historical_data := timeframeResults.foldl (fun acc l => acc ++ l) []
  dedupByDate [] all_historical_data.reverse

example :
    extract_canvas_table_data [("2025-11-08", "$1,234.56")] false ⟨2025, 11, 20, 0⟩ =
      [⟨"2025-11-08", mkRat 123456 100⟩] := by decide
example :
    extract_canvas_table_data [("11/5 to 11/7", "$2.00")] true ⟨2025, 11, 20, 0⟩ =
      [⟨"2025-11-05", 2⟩, ⟨"2025-11-06", 2⟩, ⟨"2025-11-07", 2⟩] := by decide
example : extract_canvas_table_data [("11/5", "$2.00")] true ⟨2025, 11, 20, 0⟩ = [] := by
  decide
example :
    extract_historical_prices [[⟨"2025-01-01", 105⟩], [⟨"2025-01-01", 100⟩]] =
      [⟨"2025-01-01", 100⟩] := by decide

/-- In-memory state of `CheckpointManager`
(backfill_historical_prices.py:94-153): the two outcome id lists plus
the aggregate counters (file persistence is an external concern). -/
structure Checkpoint where
  processed_products : List Int
  failed_products : List Int
  total_inserted : Int
  total_failed : Int
  total_skipped : Int
deriving DecidableEq, Repr

/-- `CheckpointManager.mark_processed`: append the id if absent. -/
def mark_processed (cp : Checkpoint) (product_id : Int) : Checkpoint :=
  if product_id ∈ cp.processed_products then cp
  else { cp with processed_products := cp.processed_products ++ [product_id] }

/-- `CheckpointManager.mark_failed`: append the id if absent. -/
def mark_failed (cp : Checkpoint) (product_id : Int) : Checkpoint :=
  if product_id ∈ cp.failed_products then cp
  else { cp with failed_products := cp.failed_products ++ [product_id] }

/-- `CheckpointManager.is_processed`: membership in the processed list
(the failed list is not consulted). -/
def is_processed (cp : Checkpoint) (product_id : Int) : Bool :=
  cp.processed_products.contains product_id

/-- `CheckpointManager.update_stats`: additive counter accumulation. -/
def update_stats (cp : Checkpoint) (inserted failed skipped : Int) : Checkpoint :=
  { cp with
    total_inserted := cp.total_inserted + inserted
    total_failed := cp.total_failed + failed
    total_skipped := cp.total_skipped + skipped }

/-- `RATE_LIMIT_CONFIG['max_retries']`. -/
def max_retries : Nat := 3

/-- The per-item retry loop (backfill_historical_prices.py:716-757) on
the no-exception path: run `fetch` once per attempt, stopping at the
first non-empty extraction; returns the data of the last attempt made
and the number of fetch attempts performed. -/
def retryFetch (fetch : Nat → List Entry) (attempt : Nat) : Nat → List Entry × Nat
  | 0 => ([], 0)
  | remaining + 1 =>
    let historical_data := fetch attempt
    if historical_data.isEmpty then
      let r := retryFetch fetch (attempt + 1) remaining
      (r.1, r.2 + 1)
    else (historical_data, 1)

/-- How an item left the per-item pipeline. -/
inductive ItemOutcome
  | skippedReleasedLate
  | skippedComplete
  | noDataFailed
  | skippedNoneInWindow
  | skippedAllExisting
  | insertedNew (count : Nat)
deriving DecidableEq, Repr

/-- One row prepared for `product_price_history` (the argument of
`batch_insert_price_history`). -/
structure BatchEntry where
  product_id : Int
  usd_price : ℚ
  recorded_at : String
deriving DecidableEq, Repr

/-- Everything the per-item pipeline decides: the updated checkpoint,
how the item ended, how many fetch attempts ran, and the entries
submitted to the batch insert. -/
structure ItemResult where
  checkpoint : Checkpoint
  outcome : ItemOutcome
  attempts : Nat
  batch : List BatchEntry
deriving DecidableEq, Repr

/-- `[entry for entry in historical_data if product_start_date <=
entry['date'] <= target_end_date]` (line 766-769). -/
def filtered_data (historical_data : List Entry) (product_start_date target_end_date : String) :
    List Entry :=
  historical_data.filter (fun e => strLe product_start_date e.date && strLe e.date target_end_date)

/-- `[entry for entry in filtered_data if entry['date'] not in
existing_dates]` (line 778). -/
def new_entries (fd : List Entry) (existing_dates : List String) : List Entry :=
  fd.filter (fun e => !existing_dates.contains e.date)

/-- The batch rows built at lines 789-796: noon timestamp appended to
the date. -/
def batch_entries (product_id : Int) (ne : List Entry) : List BatchEntry :=
  ne.map (fun e => ⟨product_id, e.price, e.date ++ " 12:00:00"⟩)

/-- The per-item pipeline of `backfill_prices` from the coverage check
onward (backfill_historical_prices.py:693-810), once the effective
start date is fixed: coverage-completeness skip, bounded-retry fetch,
window filter, existing-date filter, batch build, checkpoint update.
`existing_raw` carries the coverage-probe rows; `set()` semantics is
`List.dedup`.  The batch insert itself is the external persistence
sink; on its success path every submitted entry counts as inserted. -/
def processItemFrom (cp : Checkpoint) (product_id : Int) (start_date end_date : Date)
    (existing_raw : List String) (fetch : Nat → List Entry) : ItemResult :=
  let product_start_date := dateToStr start_date
  let target_end_date := dateToStr end_date
  let existing_dates := existing_raw.dedup
  let expected_days : Int := (end_date.toOrd - start_date.toOrd) + 1
  if (existing_dates.length : Int) ≥ expected_days then
    ⟨update_stats (mark_processed cp product_id) 0 0 1, .skippedComplete, 0, []⟩
  else
    let r := retryFetch fetch 1 max_retries
    if r.1.isEmpty then
      ⟨update_stats (mark_failed cp product_id) 0 1 0, .noDataFailed, r.2, []⟩
    else
      let fd := filtered_data r.1 product_start_date target_end_date
      if fd.isEmpty then
        ⟨update_stats (mark_processed cp product_id) 0 0 1, .skippedNoneInWindow, r.2, []⟩
      else
        let ne := new_entries fd existing_dates
        if ne.isEmpty then
          ⟨update_stats (mark_processed cp product_id) 0 0 1, .skippedAllExisting, r.2, []⟩
        else
          let be := batch_entries product_id ne
          ⟨mark_processed (update_stats cp (be.length : Int) 0 0) product_id,
            .insertedNew be.length, r.2, be⟩

/-- The full per-item pipeline (backfill_historical_prices.py:645-810)
including the release-date floor of lines 668-691: `release_date` is
the successfully parsed release date (or `none` when absent or
unparseable, in which case the window start stays `n_days_ago`). -/
def processItem (cp : Checkpoint) (product_id : Int) (release_date : Option Date)
    (n_days_ago target_end : Date) (existing_raw : List String)
    (fetch : Nat → List Entry) : ItemResult :=
  match release_date with
  | some r =>
    if r.toOrd > n_days_ago.toOrd then
      processItemFrom cp product_id r target_end existing_raw fetch
    else if r.toOrd > target_end.toOrd then
      ⟨update_stats (mark_processed cp product_id) 0 0 1, .skippedReleasedLate, 0, []⟩
    else
      processItemFrom cp product_id n_days_ago target_end existing_raw fetch
  | none => processItemFrom cp product_id n_days_ago target_end existing_raw fetch

/-- One catalog item together with the external data its run sees:
its parsed release date, the coverage-probe rows, and the per-attempt
extraction results. -/
structure ItemInputs where
  product_id : Int
  release_date : Option Date
  existing_raw : List String
  fetch : Nat → List Entry

/-- The `for` loop of `backfill_prices` (lines 645-810): run the
per-item pipeline over the given items sequentially, threading the
checkpoint; returns the final checkpoint and the per-item outcome
trace. -/
def runStep (n_days_ago target_end : Date) (acc : Checkpoint × List (Int × ItemOutcome))
    (p : ItemInputs) : Checkpoint × List (Int × ItemOutcome) :=
  let r := processItem acc.1 p.product_id p.release_date n_days_ago target_end
    p.existing_raw p.fetch
  (r.checkpoint, acc.2 ++ [(p.product_id, r.outcome)])

/-- The loop body folded over the surviving items, starting from an
empty trace. -/
def runLoop (n_days_ago target_end : Date) (cp : Checkpoint) (items : List ItemInputs) :
    Checkpoint × List (Int × ItemOutcome) :=
  items.foldl (runStep n_days_ago target_end) (cp, [])

/-- `backfill_prices`: the checkpoint-resume filter of line 628 followed
by the per-item loop. -/
def backfillRun (cp : Checkpoint) (n_days_ago target_end : Date) (items : List ItemInputs) :
    Checkpoint × List (Int × ItemOutcome) :=
  runLoop n_days_ago target_end cp (items.filter (fun p => !is_processed cp p.product_id))

example :
    (processItemFrom ⟨[], [], 0, 0, 0⟩ 7 ⟨2025, 1, 1⟩ ⟨2025, 1, 5⟩ []
        (fun _ => [⟨"2025-01-03", 5⟩])).batch =
      [⟨7, 5, "2025-01-03 12:00:00"⟩] := by decide
example :
    (processItemFrom ⟨[], [], 0, 0, 0⟩ 7 ⟨2025, 1, 1⟩ ⟨2025, 1, 5⟩ [] (fun _ => [])).attempts
      = 3 := by decide
example :
    (processItemFrom ⟨[], [], 0, 0, 0⟩ 7 ⟨2025, 1, 1⟩ ⟨2025, 1, 2⟩
        ["2025-01-01", "2025-01-02"] (fun _ => [])).outcome = .skippedComplete := by decide

/-- One element of the API response's `result` list (main.py): the keys
`_select_api_result` reads (`.get` yields `none` for a missing key),
plus an opaque payload standing for the remaining keys. -/
structure ApiResult where
  language : Option String
  variant : Option String
  payload : Nat
deriving DecidableEq, Repr

/-- Python truthiness of an optional string (`if preferred_language:`):
`None` and the empty string are falsy. -/
def truthyStr : Option String → Bool
  | none => false
  | some s => !s.isEmpty

/-- `_select_api_result` (main.py:70-86): `None` on an empty result
list; otherwise narrow to exact language matches when a (truthy)
language is preferred and any match, then within that to exact variant
matches when a (truthy) variant is preferred and any match, and return
the first survivor. -/
def select_api_result (results : List ApiResult)
    (preferred_variant preferred_language : Option String) : Option ApiResult :=
  if results.isEmpty then none
  else
    let f1 :=
      if truthyStr preferred_language then
        let lang_matches := results.filter (fun r => r.language == preferred_language)
        if !lang_matches.isEmpty then lang_matches else results
      else results
    let f2 :=
      if truthyStr preferred_variant then
        let variant_matches := f1.filter (fun r => r.variant == preferred_variant)
        if !variant_matches.isEmpty then variant_matches else f1
      else f1
    f2.head?

/-- The selection rule as the spec words it (§4.2): (1) exact language
matches if a language is requested and any exist, else all candidates;
(2) within that set, exact variant matches if a variant is requested
and any exist, else all; (3) the first remaining candidate ("requested"
meaning a non-empty hint, the code's truthiness convention). -/
def selectSpec (results : List ApiResult)
    (preferred_variant preferred_language : Option String) : Option ApiResult :=
  let step1 :=
    if truthyStr preferred_language ∧
        results.any (fun r => r.language == preferred_language) then
      results.filter (fun r => r.language == preferred_language)
    else results
  let step2 :=
    if truthyStr preferred_variant ∧
        step1.any (fun r => r.variant == preferred_variant) then
      step1.filter (fun r => r.variant == preferred_variant)
    else step1
  step2.head?

example :
    select_api_result [⟨some "English", some "Holofoil", 0⟩, ⟨some "Japanese", none, 1⟩]
      none (some "Japanese") = some ⟨some "Japanese", none, 1⟩ := by decide
example : select_api_result [] (some "Holofoil") (some "English") = none := by decide

/-- C1 (code bug, evaluated at the failing input): with the 1M (finest)
timeframe contributing `2025-01-01 ↦ 105.0` and the 1Y (coarsest)
timeframe contributing `2025-01-01 ↦ 100.0`, accumulated
finest-to-coarsest as `extract_historical_prices` does, the
deduplicated output carries the *coarsest* price `100.0` — not the
finest price `105.0` the claim (and the code's own comments) require:
reversing the accumulated list puts the coarsest entries first, and the
dedup then keeps the first occurrence. -/
theorem C1_dedup_keeps_coarsest :
    extract_historical_prices [[⟨"2025-01-01", 105⟩], [⟨"2025-01-01", 100⟩]] =
      [⟨"2025-01-01", 100⟩] := by decide

/-- C2 (counterexample): a table row with price text `"$0.00"` parses
to price `0`, survives extraction, dedup, the window filter and the
existing-date filter, and is submitted for persistence — there is no
positivity filter anywhere on this path, contradicting the claim that
non-positive prices are discarded before the persist step. -/
theorem C2_counterexample :
    (processItem ⟨[], [], 0, 0, 0⟩ 1 none ⟨2025, 1, 1⟩ ⟨2025, 12, 31⟩ []
        (fun _ => extract_historical_prices
          [extract_canvas_table_data [("2025-05-10", "$0.00")] false ⟨2025, 12, 31, 0⟩])).batch
      = [⟨1, 0, "2025-05-10 12:00:00"⟩] := by decide

/-- C3 (counterexample): product 7 is recorded in the checkpoint's
failed set, yet on restart the orchestrator processes it again (its
resume filter consults only the processed set) — and when the retry
still finds no data it runs the full 3-attempt pipeline once more.  So
Failed is not a terminal state across runs, contradicting the claim
that an id recorded in either set is never re-processed on restart.
The second conjunct shows the retransition the claim rules out: the
same failed item, fetched successfully on the new run, ends in the
processed set. -/
theorem C3_counterexample :
    (backfillRun ⟨[], [7], 0, 0, 0⟩ ⟨2025, 1, 1⟩ ⟨2025, 1, 5⟩
        [⟨7, none, [], fun _ => []⟩]).2 = [(7, ItemOutcome.noDataFailed)] ∧
    (backfillRun ⟨[], [7], 0, 0, 0⟩ ⟨2025, 1, 1⟩ ⟨2025, 1, 5⟩
        [⟨7, none, [], fun _ => [⟨"2025-01-03", 5⟩]⟩]).1.processed_products = [7] := by
  exact ⟨by decide, by decide⟩

/-- C4 (counterexample): `extract_canvas_table_data` never derives a
bucket's end from the next bucket's start.  The rows
`("1/1 to 1/2", $10), ("1/4 to 1/5", $12)` (current year 2025) expand
each to their own explicit inclusive range, leaving 2025-01-03 with no
entry at all — under the claim's rule the first bucket would cover
Jan 1–3.  And the claim's own example input, buckets carrying only a
start date, yields nothing in date-range mode (no " to " separator),
not three days at $10. -/
theorem C4_counterexample :
    extract_canvas_table_data [("1/1 to 1/2", "$10.00"), ("1/4 to 1/5", "$12.00")] true
        ⟨2025, 6, 1, 0⟩ =
      [⟨"2025-01-01", 10⟩, ⟨"2025-01-02", 10⟩, ⟨"2025-01-04", 12⟩, ⟨"2025-01-05", 12⟩] ∧
    "2025-01-03" ∉
      (extract_canvas_table_data [("1/1 to 1/2", "$10.00"), ("1/4 to 1/5", "$12.00")] true
        ⟨2025, 6, 1, 0⟩).map Entry.date ∧
    extract_canvas_table_data [("1/1", "$10.00"), ("1/4", "$12.00")] true ⟨2025, 6, 1, 0⟩
      = [] := by
  exact ⟨by decide, by decide, by decide⟩

/-- C9 (counterexample): `"2/29"` is a well-formed `M/D` whose
current-year (2024) date exists, and that candidate lies more than 7
days after the current time 2024-01-01T00:00:00Z, so the claim requires
the month/day in the previous year — but 2023 has no Feb 29, the
`datetime` construction raises, and `parse_short_date` returns `None`
instead of a previous-year date. -/
theorem C9_counterexample :
    pySplit "2/29" "/" = ["2", "29"] ∧ pyInt "2" = some 2 ∧ pyInt "29" = some 29 ∧
    validYMD 2024 2 29 ∧
    (⟨2024, 2, 29⟩ : Date).toOrd * 86400 > PyNow.instant ⟨2024, 1, 1, 0⟩ + 7 * 86400 ∧
    parse_short_date "2/29" ⟨2024, 1, 1, 0⟩ = none := by
  refine ⟨by decide, by decide, by decide, by decide, by decide, by decide⟩

/-- C4 (amended): in date-range mode each table row carries its own
explicit start and end (`"start to end"`); the row is flat-filled with
one price point per calendar day from its own start through its own
end inclusive, at the row's price — the end is never derived from the
following row, no sorting or window clipping happens here, and a row
holding a single date emits nothing in range mode.  Concretely, rows
`("1/1 to 1/3", $10), ("1/4 to 1/4", $12)` (current year 2025) yield
exactly three days at $10 (Jan 1–3) and one day at $12 (Jan 4). -/
theorem C4_row_expansion :
    (∀ (now : PyNow) (acc : List Entry) (ds ps a b : String) (p : ℚ) (sd ed : Date),
      pyFloat (cleanPrice ps) = some p →
      pySplit (pyStrip ds) " to " = [a, b] →
      parse_short_date (pyStrip a) now = some sd →
      parse_short_date (pyStrip b) now = some ed →
      processRow true now acc (ds, ps) =
        acc ++ (dateRangeDays sd ed).map (fun d => ⟨dateToStr d, p⟩)) ∧
    extract_canvas_table_data [("1/1 to 1/3", "$10.00"), ("1/4 to 1/4", "$12.00")] true
        ⟨2025, 6, 1, 0⟩ =
      [⟨"2025-01-01", 10⟩, ⟨"2025-01-02", 10⟩, ⟨"2025-01-03", 10⟩, ⟨"2025-01-04", 12⟩] := by
  constructor
  · intro now acc ds ps a b p sd ed hp hsplit ha hb
    simp [processRow, hp, hsplit, ha, hb]
  · decide

/-- Witness for `C4_row_expansion`: its row-local part applied to the
concrete row `("1/1 to 1/2", "$10.00")`. -/
theorem C4_row_expansion_witness :
    processRow true ⟨2025, 6, 1, 0⟩ [] ("1/1 to 1/2", "$10.00") =
      [⟨"2025-01-01", 10⟩, ⟨"2025-01-02", 10⟩] := by
  have h := C4_row_expansion.1 ⟨2025, 6, 1, 0⟩ [] "1/1 to 1/2" "$10.00" "1/1" "1/2" 10
    ⟨2025, 1, 1⟩ ⟨2025, 1, 2⟩ (by decide) (by decide) (by decide) (by decide)
  rw [h]; decide

/-- C2 (amended): the persist-stage filters are price-blind.  Entries
whose price text fails to parse are dropped at the parse boundary, but
from extraction onward every filter (`filtered_data` window test,
`new_entries` existing-date test) inspects only the date: transforming
every price by an arbitrary function `g` — in particular one producing
`0` or a negative value — commutes with the whole persist pipeline, so
a parsed non-positive price whose date passes is submitted unchanged
(`C2_counterexample` exhibits such a `$0.00` row end to end). -/
theorem C2_price_not_filtered :
    ∀ (product_id : Int) (ps te : String) (ex : List String) (hd : List Entry) (g : ℚ → ℚ),
      batch_entries product_id
          (new_entries (filtered_data (hd.map (fun e => ⟨e.date, g e.price⟩)) ps te) ex) =
        (batch_entries product_id (new_entries (filtered_data hd ps te) ex)).map
          (fun b => ⟨b.product_id, g b.usd_price, b.recorded_at⟩) := by
  intro pid ps te ex hd g
  unfold filtered_data new_entries batch_entries
  rw [List.filter_map, List.filter_map]
  simp [List.map_map, Function.comp]

/-- A filter is empty exactly when no element satisfies the predicate. -/
theorem filter_isEmpty_iff_any_false {α : Type} (p : α → Bool) (l : List α) :
    (l.filter p).isEmpty = true ↔ l.any p = false := by
  simp [List.isEmpty_iff, List.filter_eq_nil_iff, List.any_eq_false]

/-- C8: `_select_api_result` implements the spec's disambiguation rule
exactly — `None` on an empty candidate list; otherwise restrict to
exact language matches when a language is requested and any exist (else
keep all), within that restrict to exact variant matches when a variant
is requested and any exist (else keep all), and return the first
survivor; a deterministic function of the list and the two hints. -/
theorem C8_select_api_result_spec :
    ∀ (results : List ApiResult) (preferred_variant preferred_language : Option String),
      select_api_result results preferred_variant preferred_language =
        selectSpec results preferred_variant preferred_language := by
  intro results v l
  unfold select_api_result selectSpec
  by_cases hr : results.isEmpty = true
  · rw [List.isEmpty_iff.mp hr]
    by_cases hl : truthyStr l = true <;> by_cases hv : truthyStr v = true <;>
      simp [hl, hv]
  · have h1 :
        (if truthyStr l then
          let lang_matches := results.filter (fun r => r.language == l)
          if !lang_matches.isEmpty then lang_matches else results
        else results) =
        (if truthyStr l ∧ results.any (fun r => r.language == l) then
          results.filter (fun r => r.language == l)
        else results) := by
      by_cases hl : truthyStr l = true
      · by_cases ha : results.any (fun r => r.language == l) = true
        · have hne : (results.filter (fun r => r.language == l)).isEmpty = false := by
            rcases Bool.eq_false_or_eq_true
              ((results.filter (fun r => r.language == l)).isEmpty) with h | h
            · rw [(filter_isEmpty_iff_any_false _ _).mp h] at ha; cases ha
            · exact h
          simp [hl, ha, hne]
        · have he : (results.filter (fun r => r.language == l)).isEmpty = true :=
            (filter_isEmpty_iff_any_false _ _).mpr (Bool.eq_false_iff.mpr ha)
          simp [hl, ha, he, List.isEmpty_iff.mp he]
      · simp [hl]
    rw [h1]
    set step1 := (if truthyStr l ∧ results.any (fun r => r.language == l) then
      results.filter (fun r => r.language == l) else results) with hstep1
    have h2 :
        (if truthyStr v then
          let variant_matches := step1.filter (fun r => r.variant == v)
          if !variant_matches.isEmpty then variant_matches else step1
        else step1) =
        (if truthyStr v ∧ step1.any (fun r => r.variant == v) then
          step1.filter (fun r => r.variant == v)
        else step1) := by
      by_cases hv : truthyStr v = true
      · by_cases ha : step1.any (fun r => r.variant == v) = true
        · have hne : (step1.filter (fun r => r.variant == v)).isEmpty = false := by
            rcases Bool.eq_false_or_eq_true
              ((step1.filter (fun r => r.variant == v)).isEmpty) with h | h
            · rw [(filter_isEmpty_iff_any_false _ _).mp h] at ha; cases ha
            · exact h
          simp [hv, ha, hne]
        · have he : (step1.filter (fun r => r.variant == v)).isEmpty = true :=
            (filter_isEmpty_iff_any_false _ _).mpr (Bool.eq_false_iff.mpr ha)
          simp [hv, ha, he, List.isEmpty_iff.mp he]
      · simp [hv]
    simp only [hr, if_false, Bool.false_eq_true]
    rw [h2]

/-- Every id appearing in the loop's outcome trace is either already in
the starting trace or the id of one of the folded items. -/
theorem runStep_trace_ids (nd te : Date) :
    ∀ (l : List ItemInputs) (cp : Checkpoint) (acc : List (Int × ItemOutcome))
      (pr : Int × ItemOutcome),
      pr ∈ (l.foldl (runStep nd te) (cp, acc)).2 →
      pr ∈ acc ∨ pr.1 ∈ l.map ItemInputs.product_id := by
  intro l
  induction l with
  | nil => intro cp acc pr h; exact Or.inl h
  | cons p rest ih =>
    intro cp acc pr h
    simp only [List.foldl_cons] at h
    rcases ih _ _ pr h with h' | h'
    · rcases List.mem_append.mp h' with h'' | h''
      · exact Or.inl h''
      · right
        have : pr = (p.product_id, (processItem cp p.product_id p.release_date nd te
            p.existing_raw p.fetch).outcome) := by simpa [runStep] using h''
        simp [this]
    · right; simp [h']

/-- C3 (amended): within a run each item moves `Unseen → Processed` or
`Unseen → Failed`, the marking operations are idempotent, and
*Processed* is terminal — an id recorded in the processed set is always
skipped on resume (its id never appears in a later run's outcome
trace).  *Failed* is not terminal across runs: the resume filter
consults only the processed set, so a failed id is picked up again on
restart and may then become Processed (`C3_counterexample`). -/
theorem C3_processed_terminal :
    (∀ (cp : Checkpoint) (nd te : Date) (items : List ItemInputs) (pr : Int × ItemOutcome),
      pr ∈ (backfillRun cp nd te items).2 → is_processed cp pr.1 = false) ∧
    (∀ (cp : Checkpoint) (i : Int),
      mark_processed (mark_processed cp i) i = mark_processed cp i) ∧
    (∀ (cp : Checkpoint) (i : Int), mark_failed (mark_failed cp i) i = mark_failed cp i) := by
  refine ⟨?_, ?_, ?_⟩
  · intro cp nd te items pr h
    rcases runStep_trace_ids nd te _ cp [] pr h with h' | h'
    · cases h'
    · rcases List.mem_map.mp h' with ⟨p, hp, hpid⟩
      have := (List.mem_filter.mp hp).2
      rw [← hpid]
      simpa using this
  · intro cp i
    by_cases h : i ∈ cp.processed_products
    · simp [mark_processed, h]
    · simp [mark_processed, h]
  · intro cp i
    by_cases h : i ∈ cp.failed_products
    · simp [mark_failed, h]
    · simp [mark_failed, h]

/-- Witness for `C3_processed_terminal`: applied to a checkpoint whose
processed set is `[5]` and a single-item catalog for product 7 whose
fetch finds nothing. -/
theorem C3_processed_terminal_witness :
    is_processed ⟨[5], [], 0, 0, 0⟩ 7 = false :=
  C3_processed_terminal.1 ⟨[5], [], 0, 0, 0⟩ ⟨2025, 1, 1⟩ ⟨2025, 1, 2⟩
    [⟨7, none, [], fun _ => []⟩] (7, .noDataFailed) (by decide)

/-- If every attempt extracts nothing, the retry loop runs all `n`
remaining attempts and ends with no data. -/
theorem retryFetch_all_empty (fetch : Nat → List Entry) (h : ∀ a, fetch a = []) :
    ∀ (n k : Nat), retryFetch fetch k n = ([], n) := by
  intro n
  induction n with
  | zero => intro k; rfl
  | succ m ih => intro k; simp [retryFetch, h k, ih]

/-- The loop trace starting from accumulator `acc` is `acc` followed by
the trace started empty. -/
theorem foldl_runStep_acc (nd te : Date) :
    ∀ (l : List ItemInputs) (cp : Checkpoint) (acc : List (Int × ItemOutcome)),
      (l.foldl (runStep nd te) (cp, acc)).2 = acc ++ (l.foldl (runStep nd te) (cp, [])).2 := by
  intro l
  induction l with
  | nil => intro cp acc; simp
  | cons p rest ih =>
    intro cp acc
    simp only [List.foldl_cons, runStep]
    rw [ih, ih _ ([] ++ [(p.product_id, _)])]
    simp

/-- C5: with `max_retries = 3` and every fetch attempt extracting no
data, the pipeline makes exactly 3 fetch attempts (the `attempts`
count, which increments once per fetch call), marks the item Failed
with the failed counter incremented, and submits nothing; and the
orchestrator loop always continues to the remaining items after an
item's outcome — the trace of `p :: rest` is `p`'s outcome followed by
the trace of the surviving remainder. -/
theorem C5_retry_exhaustion :
    (∀ (cp : Checkpoint) (product_id : Int) (sd ed : Date) (ex : List String)
        (fetch : Nat → List Entry),
      (∀ a, fetch a = []) →
      ((ex.dedup.length : Int) < ed.toOrd - sd.toOrd + 1) →
      processItemFrom cp product_id sd ed ex fetch =
        ⟨update_stats (mark_failed cp product_id) 0 1 0, .noDataFailed, 3, []⟩) ∧
    (∀ (cp : Checkpoint) (nd te : Date) (p : ItemInputs) (rest : List ItemInputs),
      is_processed cp p.product_id = false →
      (backfillRun cp nd te (p :: rest)).2 =
        (p.product_id, (processItem cp p.product_id p.release_date nd te
          p.existing_raw p.fetch).outcome) ::
        (runLoop nd te
          (processItem cp p.product_id p.release_date nd te p.existing_raw p.fetch).checkpoint
          (rest.filter (fun q => !is_processed cp q.product_id))).2) := by
  constructor
  · intro cp pid sd ed ex fetch h1 h2
    have hr : retryFetch fetch 1 max_retries = ([], 3) :=
      retryFetch_all_empty fetch h1 max_retries 1
    simp only [processItemFrom, hr]
    rw [if_neg (not_le.mpr h2)]
    simp
  · intro cp nd te p rest h
    unfold backfillRun runLoop
    have hpred : (!is_processed cp p.product_id) = true := by rw [h]; rfl
    simp only [List.filter_cons, hpred, if_true]
    simp only [List.foldl_cons]
    rw [show runStep nd te (cp, []) p =
      ((processItem cp p.product_id p.release_date nd te p.existing_raw p.fetch).checkpoint,
        [(p.product_id, (processItem cp p.product_id p.release_date nd te
          p.existing_raw p.fetch).outcome)]) from rfl]
    rw [foldl_runStep_acc]
    simp

/-- Witness for `C5_retry_exhaustion`: a fetch stub that always returns
empty on a 5-day window with no prior coverage fails after exactly 3
attempts; and the loop continues past a failed head item. -/
theorem C5_retry_exhaustion_witness :
    processItemFrom ⟨[], [], 0, 0, 0⟩ 7 ⟨2025, 1, 1⟩ ⟨2025, 1, 5⟩ [] (fun _ => []) =
      ⟨update_stats (mark_failed ⟨[], [], 0, 0, 0⟩ 7) 0 1 0, .noDataFailed, 3, []⟩ ∧
    (backfillRun ⟨[], [], 0, 0, 0⟩ ⟨2025, 1, 1⟩ ⟨2025, 1, 5⟩
        [⟨7, none, [], fun _ => []⟩, ⟨8, none, [], fun _ => []⟩]).2 =
      (7, (processItem ⟨[], [], 0, 0, 0⟩ 7 none ⟨2025, 1, 1⟩ ⟨2025, 1, 5⟩ []
        (fun _ => [])).outcome) ::
      (runLoop ⟨2025, 1, 1⟩ ⟨2025, 1, 5⟩
        (processItem ⟨[], [], 0, 0, 0⟩ 7 none ⟨2025, 1, 1⟩ ⟨2025, 1, 5⟩ []
          (fun _ => [])).checkpoint
        ([⟨8, none, [], fun _ => []⟩].filter
          (fun q => !is_processed ⟨[], [], 0, 0, 0⟩ q.product_id))).2 :=
  ⟨C5_retry_exhaustion.1 ⟨[], [], 0, 0, 0⟩ 7 ⟨2025, 1, 1⟩ ⟨2025, 1, 5⟩ [] (fun _ => [])
      (fun _ => rfl) (by decide),
    C5_retry_exhaustion.2 ⟨[], [], 0, 0, 0⟩ ⟨2025, 1, 1⟩ ⟨2025, 1, 5⟩
      ⟨7, none, [], fun _ => []⟩ [⟨8, none, [], fun _ => []⟩] (by decide)⟩

/-- Any entry submitted by the pipeline comes from the retry loop's
extracted data and has passed both date filters: its date lies within
`[start, end]` (in the code's own string comparison on `YYYY-MM-DD`
texts) and is not among the coverage rows. -/
theorem mem_batch_processItemFrom {cp : Checkpoint} {pid : Int} {sd ed : Date}
    {ex : List String} {fetch : Nat → List Entry} {b : BatchEntry}
    (hb : b ∈ (processItemFrom cp pid sd ed ex fetch).batch) :
    ∃ e ∈ (retryFetch fetch 1 max_retries).1,
      b = ⟨pid, e.price, e.date ++ " 12:00:00"⟩ ∧
      strLe (dateToStr sd) e.date = true ∧ strLe e.date (dateToStr ed) = true ∧
      e.date ∉ ex := by
  simp only [processItemFrom] at hb
  split at hb
  · simp at hb
  · split at hb
    · simp at hb
    · split at hb
      · simp at hb
      · split at hb
        · simp at hb
        · simp only [batch_entries, new_entries, filtered_data] at hb
          rcases List.mem_map.mp hb with ⟨e, he, rfl⟩
          rcases List.mem_filter.mp he with ⟨he1, he2⟩
          rcases List.mem_filter.mp he1 with ⟨he0, he3⟩
          refine ⟨e, he0, rfl, ((Bool.and_eq_true _ _).mp he3).1,
            ((Bool.and_eq_true _ _).mp he3).2, ?_⟩
          intro hmem
          simp only [Bool.not_eq_true'] at he2
          have hc : ex.dedup.contains e.date = true :=
            List.elem_eq_true_of_mem (List.mem_dedup.mpr hmem)
          rw [hc] at he2
          cases he2

/-- The effective window start the code computes at lines 669-683:
the release date when it is strictly later than `n_days_ago`, else
`n_days_ago` — i.e. `max(targetWindowStart, releaseDate)`. -/
def laterDate (a b : Date) : Date :=
  if b.toOrd > a.toOrd then b else a

/-- C6: for an item whose release date parsed, every entry submitted
for persistence carries a date `d` with
`max(targetWindowStart, releaseDate) ≤ d ≤ targetWindowEnd` (string
comparison on the `YYYY-MM-DD` texts, as the code compares) and `d` not
among the dates reported by the existing-coverage query.  In particular
with release 2025-06-01 and window 2025-01-01..2025-12-31 no submitted
entry is dated before June 1. -/
theorem C6_release_floor :
    ∀ (cp : Checkpoint) (product_id : Int) (r nd te : Date) (ex : List String)
      (fetch : Nat → List Entry) (b : BatchEntry),
      b ∈ (processItem cp product_id (some r) nd te ex fetch).batch →
      ∃ d, b.recorded_at = d ++ " 12:00:00" ∧
        strLe (dateToStr (laterDate nd r)) d = true ∧
        strLe d (dateToStr te) = true ∧ d ∉ ex := by
  intro cp pid r nd te ex fetch b hb
  have heq : processItem cp pid (some r) nd te ex fetch =
      (if r.toOrd > nd.toOrd then processItemFrom cp pid r te ex fetch
      else if r.toOrd > te.toOrd then
        ⟨update_stats (mark_processed cp pid) 0 0 1, .skippedReleasedLate, 0, []⟩
      else processItemFrom cp pid nd te ex fetch) := rfl
  rw [heq] at hb
  by_cases h1 : r.toOrd > nd.toOrd
  · rw [if_pos h1] at hb
    rcases mem_batch_processItemFrom hb with ⟨e, _, rfl, hle, hre, hnex⟩
    exact ⟨e.date, rfl, by simpa [laterDate, h1] using hle, hre, hnex⟩
  · rw [if_neg h1] at hb
    by_cases h2 : r.toOrd > te.toOrd
    · rw [if_pos h2] at hb; simp at hb
    · rw [if_neg h2] at hb
      rcases mem_batch_processItemFrom hb with ⟨e, _, rfl, hle, hre, hnex⟩
      exact ⟨e.date, rfl, by simpa [laterDate, h1] using hle, hre, hnex⟩

/-- Witness for `C6_release_floor`: release 2025-06-01, window
2025-01-01..2025-12-31, a fetched entry on 2025-07-01. -/
theorem C6_release_floor_witness :
    ∃ d, (⟨1, 50, "2025-07-01 12:00:00"⟩ : BatchEntry).recorded_at = d ++ " 12:00:00" ∧
      strLe (dateToStr (laterDate ⟨2025, 1, 1⟩ ⟨2025, 6, 1⟩)) d = true ∧
      strLe d (dateToStr (⟨2025, 12, 31⟩ : Date)) = true ∧ d ∉ ([] : List String) :=
  C6_release_floor ⟨[], [], 0, 0, 0⟩ 1 ⟨2025, 6, 1⟩ ⟨2025, 1, 1⟩ ⟨2025, 12, 31⟩ []
    (fun _ => [⟨"2025-07-01", 50⟩]) ⟨1, 50, "2025-07-01 12:00:00"⟩ (by decide)

/-- With at least one attempt available, the retry loop performs at
least one fetch. -/
theorem retryFetch_attempts_pos (fetch : Nat → List Entry) (k n : Nat) :
    1 ≤ (retryFetch fetch k (n + 1)).2 := by
  simp only [retryFetch]
  by_cases h : (fetch k).isEmpty = true
  · simp [h]
  · simp [h]

/-- C7: the coverage-completeness decision.  When the number of
distinct covered dates reaches `endDate.toOrd - startDate.toOrd + 1`
(the expected day count of the window), the item is skipped outright:
marked Processed, skipped counter incremented, zero fetch attempts,
nothing submitted.  When the distinct count is positive but below the
threshold, the pipeline proceeds to fetch (at least one attempt). -/
theorem C7_coverage_skip :
    ∀ (cp : Checkpoint) (product_id : Int) (sd ed : Date) (ex : List String)
      (fetch : Nat → List Entry),
      (((ex.dedup.length : Int) ≥ ed.toOrd - sd.toOrd + 1) →
        processItemFrom cp product_id sd ed ex fetch =
          ⟨update_stats (mark_processed cp product_id) 0 0 1, .skippedComplete, 0, []⟩) ∧
      ((0 < ex.dedup.length) → ((ex.dedup.length : Int) < ed.toOrd - sd.toOrd + 1) →
        1 ≤ (processItemFrom cp product_id sd ed ex fetch).attempts) := by
  intro cp pid sd ed ex fetch
  constructor
  · intro h
    simp only [processItemFrom]
    rw [if_pos h]
  · intro _ h2
    simp only [processItemFrom]
    rw [if_neg (not_le.mpr h2)]
    have hp : 1 ≤ (retryFetch fetch 1 max_retries).2 := retryFetch_attempts_pos fetch 1 2
    split
    · exact hp
    · split
      · exact hp
      · split
        · exact hp
        · exact hp

/-- Witness for `C7_coverage_skip`: a 2-day window fully covered by two
distinct dates is skipped with no fetch; a 3-day window with one
covered date proceeds to fetch. -/
theorem C7_coverage_skip_witness :
    processItemFrom ⟨[], [], 0, 0, 0⟩ 7 ⟨2025, 1, 1⟩ ⟨2025, 1, 2⟩
        ["2025-01-01", "2025-01-02"] (fun _ => []) =
      ⟨update_stats (mark_processed ⟨[], [], 0, 0, 0⟩ 7) 0 0 1, .skippedComplete, 0, []⟩ ∧
    1 ≤ (processItemFrom ⟨[], [], 0, 0, 0⟩ 7 ⟨2025, 1, 1⟩ ⟨2025, 1, 3⟩
        ["2025-01-01"] (fun _ => [])).attempts :=
  ⟨(C7_coverage_skip ⟨[], [], 0, 0, 0⟩ 7 ⟨2025, 1, 1⟩ ⟨2025, 1, 2⟩
      ["2025-01-01", "2025-01-02"] (fun _ => [])).1 (by decide),
    (C7_coverage_skip ⟨[], [], 0, 0, 0⟩ 7 ⟨2025, 1, 1⟩ ⟨2025, 1, 3⟩
      ["2025-01-01"] (fun _ => [])).2 (by decide) (by decide)⟩

/-- The dict-based dedup yields pairwise-distinct dates, none of them
in `seen`. -/
theorem dedupByDate_dates_nodup :
    ∀ (l : List Entry) (seen : List String),
      ((dedupByDate seen l).map Entry.date).Nodup ∧
      ∀ d ∈ (dedupByDate seen l).map Entry.date, d ∉ seen := by
  intro l
  induction l with
  | nil => intro seen; exact ⟨List.nodup_nil, by simp [dedupByDate]⟩
  | cons e rest ih =>
    intro seen
    by_cases h : e.date ∈ seen
    · simpa [dedupByDate, h] using ih seen
    · simp only [dedupByDate, h, if_false, List.map_cons]
      refine ⟨List.nodup_cons.mpr ⟨?_, (ih (e.date :: seen)).1⟩, ?_⟩
      · intro hmem
        exact (ih (e.date :: seen)).2 _ hmem (List.mem_cons_self _ _)
      · intro d hd
        rcases List.mem_cons.mp hd with rfl | hd'
        · exact h
        · exact fun hseen =>
            (ih (e.date :: seen)).2 d hd' (List.mem_cons_of_mem _ hseen)

/-- The merged, deduplicated series has one entry per date. -/
theorem extract_dates_nodup (tf : List (List Entry)) :
    ((extract_historical_prices tf).map Entry.date).Nodup := by
  unfold extract_historical_prices
  exact (dedupByDate_dates_nodup _ []).1

/-- The retry loop returns either nothing or the result of one fetch
attempt, unmodified. -/
theorem retryFetch_result (fetch : Nat → List Entry) :
    ∀ (n k : Nat), (retryFetch fetch k n).1 = [] ∨
      ∃ j, (retryFetch fetch k n).1 = fetch j := by
  intro n
  induction n with
  | zero => intro k; exact Or.inl rfl
  | succ m ih =>
    intro k
    simp only [retryFetch]
    by_cases h : (fetch k).isEmpty = true
    · simp only [h, if_true]
      exact ih (k + 1)
    · simp only [h, if_false]
      exact Or.inr ⟨k, rfl⟩

/-- Appending a fixed suffix to strings is injective. -/
theorem append_suffix_inj (sfx : String) :
    Function.Injective (fun s : String => s ++ sfx) := by
  intro a b h
  have h2 : a.data ++ sfx.data = b.data ++ sfx.data := by
    have h1 := congrArg String.data h
    simpa [String.data_append] using h1
  cases a; cases b
  exact congrArg String.mk (List.append_cancel_right h2)

/-- The submitted batch is either empty or the filters-and-map applied
to the retry loop's data. -/
theorem processItemFrom_batch_shape (cp : Checkpoint) (pid : Int) (sd ed : Date)
    (ex : List String) (fetch : Nat → List Entry) :
    (processItemFrom cp pid sd ed ex fetch).batch = [] ∨
    (processItemFrom cp pid sd ed ex fetch).batch =
      batch_entries pid (new_entries (filtered_data (retryFetch fetch 1 max_retries).1
        (dateToStr sd) (dateToStr ed)) ex.dedup) := by
  simp only [processItemFrom]
  split
  · exact Or.inl rfl
  · split
    · exact Or.inl rfl
    · split
      · exact Or.inl rfl
      · split
        · exact Or.inl rfl
        · exact Or.inr rfl

/-- `processItem` either submits nothing or behaves as
`processItemFrom` from some effective start date. -/
theorem processItem_batch_cases (cp : Checkpoint) (pid : Int) (rel : Option Date)
    (nd te : Date) (ex : List String) (fetch : Nat → List Entry) :
    (processItem cp pid rel nd te ex fetch).batch = [] ∨
    ∃ sd, (processItem cp pid rel nd te ex fetch).batch =
      (processItemFrom cp pid sd te ex fetch).batch := by
  cases rel with
  | none => exact Or.inr ⟨nd, rfl⟩
  | some r =>
    by_cases h1 : r.toOrd > nd.toOrd
    · exact Or.inr ⟨r, by simp [processItem, h1]⟩
    · by_cases h2 : r.toOrd > te.toOrd
      · exact Or.inl (by simp [processItem, h1, h2])
      · exact Or.inr ⟨nd, by simp [processItem, h1, h2]⟩

/-- If the fetched data has pairwise-distinct dates, so do the
submitted rows' timestamps. -/
theorem batch_dates_nodup (pid : Int) (ps te : String) (ex : List String)
    (data : List Entry) (h : (data.map Entry.date).Nodup) :
    ((batch_entries pid (new_entries (filtered_data data ps te) ex)).map
      BatchEntry.recorded_at).Nodup := by
  have hsub : List.Sublist (new_entries (filtered_data data ps te) ex) data :=
    (List.filter_sublist _).trans (List.filter_sublist _)
  have hdates : ((new_entries (filtered_data data ps te) ex).map Entry.date).Nodup :=
    (hsub.map Entry.date).nodup h
  have hmm :
      (batch_entries pid (new_entries (filtered_data data ps te) ex)).map
        BatchEntry.recorded_at =
      ((new_entries (filtered_data data ps te) ex).map Entry.date).map
        (fun s => s ++ " 12:00:00") := by
    simp [batch_entries, List.map_map, Function.comp]
  rw [hmm]
  exact hdates.map (append_suffix_inj _)

/-- C10: within one run, for any item, the rows handed to the batch
insert have pairwise-distinct timestamps (the dedup map keys by date,
and all later stages filter or map one-to-one), and every submitted
date is absent from the existing-dates set fetched for that item — so
the core never submits a duplicate (item, date) pair. -/
theorem C10_no_duplicate_submissions :
    ∀ (cp : Checkpoint) (product_id : Int) (release_date : Option Date) (nd te : Date)
      (ex : List String) (tf : Nat → List (List Entry)),
      (((processItem cp product_id release_date nd te ex
          (fun a => extract_historical_prices (tf a))).batch.map
        BatchEntry.recorded_at).Nodup) ∧
      (∀ b ∈ (processItem cp product_id release_date nd te ex
          (fun a => extract_historical_prices (tf a))).batch,
        ∃ d, b.recorded_at = d ++ " 12:00:00" ∧ d ∉ ex) := by
  intro cp pid rel nd te ex tf
  constructor
  · rcases processItem_batch_cases cp pid rel nd te ex
        (fun a => extract_historical_prices (tf a)) with h | ⟨sd, h⟩
    · simp [h]
    · rw [h]
      rcases processItemFrom_batch_shape cp pid sd te ex
          (fun a => extract_historical_prices (tf a)) with h' | h'
      · simp [h']
      · rw [h']
        apply batch_dates_nodup
        rcases retryFetch_result (fun a => extract_historical_prices (tf a))
            max_retries 1 with hr | ⟨j, hr⟩
        · simp [hr]
        · rw [hr]
          exact extract_dates_nodup (tf j)
  · intro b hb
    rcases processItem_batch_cases cp pid rel nd te ex
        (fun a => extract_historical_prices (tf a)) with h | ⟨sd, h⟩
    · rw [h] at hb; cases hb
    · rw [h] at hb
      rcases mem_batch_processItemFrom hb with ⟨e, _, rfl, _, _, hnex⟩
      exact ⟨e.date, rfl, hnex⟩

/-- Witness for `C10_no_duplicate_submissions`: a one-entry fetch on a
fresh item yields a single submitted row whose date decomposes and is
not among the (empty) existing dates. -/
theorem C10_no_duplicate_submissions_witness :
    ∃ d, (⟨1, 5, "2025-01-03 12:00:00"⟩ : BatchEntry).recorded_at = d ++ " 12:00:00" ∧
      d ∉ ([] : List String) :=
  (C10_no_duplicate_submissions ⟨[], [], 0, 0, 0⟩ 1 none ⟨2025, 1, 1⟩ ⟨2025, 1, 5⟩ []
    (fun _ => [[⟨"2025-01-03", 5⟩]])).2 ⟨1, 5, "2025-01-03 12:00:00"⟩ (by decide)

/-- C9 (amended): `parse_short_date` is total on strings and returns
`none` unless the input splits on `"/"` into exactly two parts that
both parse as Python integers; when they do, with month `m` and day
`d`: an invalid `m/d` for the current year yields `none`; a valid
current-year candidate more than 7 days after the current instant
falls back to the previous year *only if* `m/d` is also a valid date
there (else `none`, e.g. Feb 29 falling back to a non-leap year);
otherwise the current-year date is returned. -/
theorem C9_short_date_spec :
    (∀ (s : String) (now : PyNow),
      (pySplit s "/").length ≠ 2 → parse_short_date s now = none) ∧
    (∀ (s : String) (now : PyNow) (ms ds : String),
      pySplit s "/" = [ms, ds] → ((pyInt ms).isNone ∨ (pyInt ds).isNone) →
      parse_short_date s now = none) ∧
    (∀ (s : String) (now : PyNow) (ms ds : String) (m d : Int),
      pySplit s "/" = [ms, ds] → pyInt ms = some m → pyInt ds = some d →
      parse_short_date s now =
        if validYMD now.year m d then
          (if (⟨now.year, m, d⟩ : Date).toOrd * 86400 > now.instant + 7 * 86400 then
            (if validYMD (now.year - 1) m d then some ⟨now.year - 1, m, d⟩ else none)
          else some ⟨now.year, m, d⟩)
        else none) := by
  refine ⟨?_, ?_, ?_⟩
  · intro s now hlen
    unfold parse_short_date
    rcases hsp : pySplit s "/" with _ | ⟨a, _ | ⟨b, _ | ⟨c, rest⟩⟩⟩
    · rfl
    · rfl
    · rw [hsp] at hlen; simp at hlen
    · rfl
  · intro s now ms ds hsp hnone
    unfold parse_short_date
    rw [hsp]
    show (match pyInt ms, pyInt ds with
      | some month, some day =>
        match mkDate now.year month day with
        | some cand =>
          if cand.toOrd * 86400 > now.instant + 7 * 86400 then mkDate (now.year - 1) month day
          else some cand
        | none => none
      | _, _ => none) = none
    rcases hnone with h | h
    · rw [Option.isNone_iff_eq_none.mp h]
    · rcases hms : pyInt ms with _ | m
      · rfl
      · rw [Option.isNone_iff_eq_none.mp h]
  · intro s now ms ds m d hsp hm hd
    unfold parse_short_date
    rw [hsp]
    show (match pyInt ms, pyInt ds with
      | some month, some day =>
        match mkDate now.year month day with
        | some cand =>
          if cand.toOrd * 86400 > now.instant + 7 * 86400 then mkDate (now.year - 1) month day
          else some cand
        | none => none
      | _, _ => none) = _
    rw [hm, hd]
    by_cases hv : validYMD now.year m d
    · simp only [mkDate, if_pos hv]
    · simp only [mkDate, if_neg hv]

/-- Witness for `C9_short_date_spec`: `"12/25"` seen from
2024-01-01T00:00:00Z resolves to 2023-12-25 (previous year, which has
a Dec 25). -/
theorem C9_short_date_spec_witness :
    parse_short_date "12/25" ⟨2024, 1, 1, 0⟩ = some ⟨2023, 12, 25⟩ := by
  have h := C9_short_date_spec.2.2 "12/25" ⟨2024, 1, 1, 0⟩ "12" "25" 12 25 (by decide)
    (by decide) (by decide)
  rw [h]
  decide
